import Mathlib

/-!
Verification of the calt agent-workflow daemon against its specification.

The Lean definitions below are shallow embeddings of the Python sources:
* `calt/core/models.py` and `calt/core/state_machine.py` (workflow statuses,
  transition table, `transition_run`),
* `calt/storage/sqlite.py` (the events journal triggers),
* `calt/daemon/api.py` (the execute-step finalization / session roll-up and
  the event-search LIKE fallback),
* `calt/tools/write_ops.py` (the two-phase write discipline),
and, for the engine behaviors that exist only in the richer daemon surface
exercised by the test suite (preview gate, needs-replan gate, reference
resolver), definitions modelled from the specification text.
Machine timestamps are modelled as natural numbers supplied by the caller;
hash and diff computations are modelled as parameters, since no verified
property depends on their concrete values.
-/

namespace Calt

/-- Decidable equality for `Except`, used to decide properties of the
fallible embedded operations. -/
instance {ε α : Type} [DecidableEq ε] [DecidableEq α] : DecidableEq (Except ε α) :=
  fun x y =>
    match x, y with
    | .ok a, .ok b =>
      if h : a = b then .isTrue (by rw [h])
      else .isFalse (by intro hh; cases hh; exact h rfl)
    | .ok _, .error _ => .isFalse (by intro h; cases h)
    | .error _, .ok _ => .isFalse (by intro h; cases h)
    | .error e, .error f =>
      if h : e = f then .isTrue (by rw [h])
      else .isFalse (by intro hh; cases hh; exact h rfl)

/-- Workflow statuses, from `calt/core/models.py` (`class WorkflowStatus`). -/
inductive WorkflowStatus where
  | pending
  | awaiting_plan_approval
  | awaiting_step_approval
  | running
  | succeeded
  | failed
  | cancelled
  | skipped
deriving DecidableEq, Repr, Fintype

open WorkflowStatus

/-- Terminal statuses, from `calt/core/models.py` (`TERMINAL_STATUSES`). -/
def TERMINAL_STATUSES : List WorkflowStatus :=
  [succeeded, failed, cancelled, skipped]

/-- Membership in `TERMINAL_STATUSES` as a boolean test. -/
def isTerminal (s : WorkflowStatus) : Bool :=
  TERMINAL_STATUSES.contains s

/-- The legal-transition table, from `calt/core/state_machine.py`
(`TRANSITION_RULES`). -/
def TRANSITION_RULES : WorkflowStatus → List WorkflowStatus
  | pending => [awaiting_plan_approval, cancelled]
  | awaiting_plan_approval => [awaiting_step_approval, cancelled]
  | awaiting_step_approval => [running, skipped, cancelled]
  | running => [succeeded, failed, cancelled, skipped]
  | succeeded => []
  | failed => []
  | cancelled => []
  | skipped => []

/-- From `calt/core/state_machine.py` (`needs_replan_for_status`). -/
def needs_replan_for_status (s : WorkflowStatus) : Bool :=
  s == failed

/-- The distinguished error raised by `assert_transition`
(`InvalidStateTransition` in `calt/core/state_machine.py`). -/
inductive InvalidStateTransition where
  | invalid (src dst : WorkflowStatus)
deriving DecidableEq, Repr

/-- From `calt/core/state_machine.py` (`assert_transition`): succeeds exactly
when the transition is in the table, otherwise signals
`InvalidStateTransition`. -/
def assert_transition (current next_status : WorkflowStatus) :
    Except InvalidStateTransition Unit :=
  if next_status ∈ TRANSITION_RULES current then .ok ()
  else .error (.invalid current next_status)

/-- From `calt/core/state_machine.py` (`apply_transition`). -/
def apply_transition (current next_status : WorkflowStatus) :
    Except InvalidStateTransition WorkflowStatus :=
  match assert_transition current next_status with
  | .ok _ => .ok next_status
  | .error e => .error e

/-- A run record, the fields of `Run` in `calt/core/models.py` that
`transition_run` reads or writes.  Timestamps are naturals. -/
structure Run where
  status : WorkflowStatus
  needs_replan : Bool
  failure_reason : Option String
  started_at : Option Nat
  finished_at : Option Nat
deriving DecidableEq, Repr

/-- A freshly constructed `Run` with the default field values of
`calt/core/models.py`. -/
def initRun : Run :=
  { status := pending
    needs_replan := false
    failure_reason := none
    started_at := none
    finished_at := none }

/-- From `calt/core/state_machine.py` (`transition_run`), with `utc_now()`
modelled by the supplied `now`. -/
def transition_run (now : Nat) (run : Run) (next_status : WorkflowStatus)
    (failure_reason : Option String) : Except InvalidStateTransition Run :=
  match apply_transition run.status next_status with
  | .error e => .error e
  | .ok st =>
    let run := { run with status := st, needs_replan := needs_replan_for_status st }
    let run :=
      if run.status = running ∧ run.started_at = none then
        { run with started_at := some now }
      else run
    let run :=
      if run.status = failed then
        { run with failure_reason := some (failure_reason.getD "step_failed") }
      else if isTerminal run.status then
        { run with failure_reason := none }
      else run
    let run :=
      if isTerminal run.status then { run with finished_at := some now }
      else run
    .ok run

/-- One call in a sequence of `transition_run` invocations. -/
structure TransitionCall where
  next_status : WorkflowStatus
  failure_reason : Option String
  now : Nat
deriving DecidableEq, Repr

/-- Folds a sequence of `transition_run` calls over a run, stopping at the
first invalid transition. -/
def applyCalls (run : Run) : List TransitionCall → Except InvalidStateTransition Run
  | [] => .ok run
  | c :: cs =>
    match transition_run c.now run c.next_status c.failure_reason with
    | .error e => .error e
    | .ok run1 => applyCalls run1 cs

/-- C4: the state-machine transition from `s` to `t` succeeds and yields `t`
exactly when `t` is in the legal-transition table for `s`, and otherwise
raises `InvalidStateTransition`. -/
theorem transition_succeeds_iff_in_table :
    ∀ s t : WorkflowStatus,
      (apply_transition s t = .ok t ↔ t ∈ TRANSITION_RULES s) ∧
      (t ∉ TRANSITION_RULES s →
        apply_transition s t = .error (.invalid s t)) := by
  decide

/-- Witness for C4 at concrete statuses: `pending → awaiting_plan_approval`
is legal and succeeds; `pending → running` is illegal and raises. -/
theorem transition_succeeds_iff_in_table_witness :
    apply_transition pending awaiting_plan_approval = .ok awaiting_plan_approval ∧
    apply_transition pending running = .error (.invalid pending running) := by
  refine ⟨?_, ?_⟩
  · exact (transition_succeeds_iff_in_table pending awaiting_plan_approval).1.mpr
      (by decide)
  · exact (transition_succeeds_iff_in_table pending running).2 (by decide)

theorem apply_transition_ok {c n x : WorkflowStatus}
    (h : apply_transition c n = .ok x) : x = n := by
  unfold apply_transition assert_transition at h
  split at h
  · cases h; rfl
  · cases h

theorem transition_run_fields {now : Nat} {r : Run} {n : WorkflowStatus}
    {fr : Option String} {r1 : Run}
    (h : transition_run now r n fr = .ok r1) :
    r1.status = n ∧
    r1.needs_replan = needs_replan_for_status n ∧
    (isTerminal n = true → r1.finished_at = some now) ∧
    (n = running → r1.started_at ≠ none) ∧
    (∀ t, r.started_at = some t → r1.started_at = some t) ∧
    (n = failed → r1.failure_reason = some (fr.getD "step_failed")) ∧
    (isTerminal n = true → n ≠ failed → r1.failure_reason = none) := by
  unfold transition_run at h
  rcases hap : apply_transition r.status n with e | st
  · rw [hap] at h; cases h
  · rw [hap] at h
    have hst : st = n := apply_transition_ok hap
    subst hst
    simp only at h
    split at h <;> split at h <;> split at h <;>
      cases h <;> simp_all [isTerminal, TERMINAL_STATUSES, needs_replan_for_status]

theorem applyCalls_last {r : Run} {calls : List TransitionCall} {r1 : Run}
    (h : applyCalls r calls = .ok r1) :
    r1 = r ∨ ∃ r0 c, c ∈ calls ∧
      transition_run c.now r0 c.next_status c.failure_reason = .ok r1 := by
  induction calls generalizing r with
  | nil => cases h; exact Or.inl rfl
  | cons c cs ih =>
    unfold applyCalls at h
    rcases hc : transition_run c.now r c.next_status c.failure_reason with e | rr
    · rw [hc] at h; cases h
    · rw [hc] at h
      rcases ih h with heq | ⟨r0, c0, hmem, hstep⟩
      · exact Or.inr ⟨r, c, List.mem_cons_self c cs, heq ▸ hc⟩
      · exact Or.inr ⟨r0, c0, List.mem_cons_of_mem c hmem, hstep⟩

theorem applyCalls_started_preserved {r : Run} {calls : List TransitionCall}
    {r1 : Run} {t : Nat}
    (h : applyCalls r calls = .ok r1) (hs : r.started_at = some t) :
    r1.started_at = some t := by
  induction calls generalizing r with
  | nil => cases h; exact hs
  | cons c cs ih =>
    unfold applyCalls at h
    rcases hc : transition_run c.now r c.next_status c.failure_reason with e | rr
    · rw [hc] at h; cases h
    · rw [hc] at h
      exact ih h ((transition_run_fields hc).2.2.2.2.1 t hs)

theorem applyCalls_running_sets {r : Run} {calls : List TransitionCall}
    {r1 : Run} {c : TransitionCall}
    (h : applyCalls r calls = .ok r1) (hm : c ∈ calls)
    (hr : c.next_status = running) : r1.started_at ≠ none := by
  induction calls generalizing r with
  | nil => cases hm
  | cons c0 cs ih =>
    unfold applyCalls at h
    rcases hc : transition_run c0.now r c0.next_status c0.failure_reason with e | rr
    · rw [hc] at h; cases h
    · rw [hc] at h
      rcases List.mem_cons.mp hm with heq | hmem
      · subst heq
        have hne := (transition_run_fields hc).2.2.2.1 hr
        rcases hx : rr.started_at with _ | t
        · exact absurd hx hne
        · intro hcon
          exact Option.noConfusion
            (hcon ▸ applyCalls_started_preserved h hx)
      · exact ih h hmem

/-- C5: invariants of any run produced from a fresh `Run` by a sequence of
`transition_run` calls: terminal status implies `finished_at` is stamped;
having entered `running` implies `started_at` is stamped; `needs_replan`
holds exactly on `failed`; on `failed` the failure reason is the supplied one
or the default `step_failed`; any non-failed terminal status has the failure
reason cleared. -/
theorem transition_run_invariants (calls : List TransitionCall) (r : Run)
    (h : applyCalls initRun calls = .ok r) :
    (isTerminal r.status = true → r.finished_at ≠ none) ∧
    ((∃ c ∈ calls, c.next_status = running) → r.started_at ≠ none) ∧
    (r.needs_replan = true ↔ r.status = failed) ∧
    (r.status = failed →
      ∃ c ∈ calls, c.next_status = failed ∧
        r.failure_reason = some (c.failure_reason.getD "step_failed")) ∧
    (isTerminal r.status = true → r.status ≠ failed → r.failure_reason = none) := by
  have hlast := applyCalls_last h
  refine ⟨?_, ?_, ?_, ?_, ?_⟩
  · intro hterm
    rcases hlast with heq | ⟨r0, c, _, hstep⟩
    · rw [heq] at hterm; simp [initRun, isTerminal, TERMINAL_STATUSES] at hterm
    · obtain ⟨hst, _, hfin, _⟩ := transition_run_fields hstep
      rw [hfin (hst ▸ hterm)]; simp
  · rintro ⟨c, hm, hr⟩
    exact applyCalls_running_sets h hm hr
  · rcases hlast with heq | ⟨r0, c, _, hstep⟩
    · rw [heq]; simp [initRun]
    · obtain ⟨hst, hnr, _⟩ := transition_run_fields hstep
      rw [hnr, hst]
      cases c.next_status <;> simp [needs_replan_for_status]
  · intro hfail
    rcases hlast with heq | ⟨r0, c, hm, hstep⟩
    · rw [heq] at hfail; simp [initRun] at hfail
    · obtain ⟨hst, _, _, _, _, hreason, _⟩ := transition_run_fields hstep
      have hn : c.next_status = failed := by rw [← hst]; exact hfail
      exact ⟨c, hm, hn, hreason hn⟩
  · intro hterm hnf
    rcases hlast with heq | ⟨r0, c, _, hstep⟩
    · rw [heq] at hterm; simp [initRun, isTerminal, TERMINAL_STATUSES] at hterm
    · obtain ⟨hst, _, _, _, _, _, hclear⟩ := transition_run_fields hstep
      exact hclear (hst ▸ hterm) (by rw [← hst]; exact hnf)

/-- Witness for C5: a concrete approve/run/fail trace. -/
theorem transition_run_invariants_witness :
    let calls : List TransitionCall :=
      [⟨awaiting_plan_approval, none, 10⟩, ⟨awaiting_step_approval, none, 11⟩,
       ⟨running, none, 12⟩, ⟨failed, some "boom", 13⟩]
    let r : Run :=
      { status := failed, needs_replan := true, failure_reason := some "boom",
        started_at := some 12, finished_at := some 13 }
    (isTerminal r.status = true → r.finished_at ≠ none) ∧
    ((∃ c ∈ calls, c.next_status = running) → r.started_at ≠ none) ∧
    (r.needs_replan = true ↔ r.status = failed) ∧
    (r.status = failed →
      ∃ c ∈ calls, c.next_status = failed ∧
        r.failure_reason = some (c.failure_reason.getD "step_failed")) ∧
    (isTerminal r.status = true → r.status ≠ failed → r.failure_reason = none) :=
  transition_run_invariants
    [⟨awaiting_plan_approval, none, 10⟩, ⟨awaiting_step_approval, none, 11⟩,
     ⟨running, none, 12⟩, ⟨failed, some "boom", 13⟩]
    { status := failed, needs_replan := true, failure_reason := some "boom",
      started_at := some 12, finished_at := some 13 }
    (by decide)

/-- A row of the `events` table, from `SCHEMA_SQL` in
`calt/storage/sqlite.py` (timestamp column omitted; `id` is the
autoincrement key). -/
structure EventRow where
  id : Nat
  session_id : String
  run_id : Option Nat
  event_type : String
  summary : String
  payload_text : String
deriving DecidableEq, Repr

/-- A DML statement against a single table of rows. -/
inductive TableOp where
  | insertRow (row : EventRow)
  | updateRows (cond : EventRow → Bool) (change : EventRow → EventRow)
  | deleteRows (cond : EventRow → Bool)

/-- The `BEFORE UPDATE` / `BEFORE DELETE` abort triggers a table may carry:
`some msg` models `CREATE TRIGGER ... BEGIN SELECT RAISE(ABORT, msg); END`. -/
structure TableTriggers where
  before_update_abort : Option String
  before_delete_abort : Option String
deriving DecidableEq, Repr

/-- The triggers installed on `events` by `SCHEMA_SQL`
(`trg_events_append_only_update` and `trg_events_append_only_delete` in
`calt/storage/sqlite.py`). -/
def events_triggers : TableTriggers :=
  { before_update_abort := some "events is append-only"
    before_delete_abort := some "events is append-only" }

/-- Executes one DML statement against a table guarded by abort triggers:
an abort trigger rolls the statement back with its message; otherwise
inserts append, updates rewrite matching rows and deletes drop them. -/
def runTableOp (trg : TableTriggers) (tbl : List EventRow) :
    TableOp → Except String (List EventRow)
  | .insertRow r => .ok (tbl ++ [r])
  | .updateRows cond change =>
    match trg.before_update_abort with
    | some msg => .error msg
    | none => .ok (tbl.map fun r => if cond r then change r else r)
  | .deleteRows cond =>
    match trg.before_delete_abort with
    | some msg => .error msg
    | none => .ok (tbl.filter fun r => !cond r)

/-- C6: the events journal is append-only.  Under the triggers installed by
the schema, every committed statement leaves the existing rows in place (the
old table is a prefix of the new one), and every UPDATE or DELETE statement
against `events` is aborted unconditionally with `"events is append-only"`. -/
theorem events_append_only :
    (∀ (tbl : List EventRow) (op : TableOp) (tbl1 : List EventRow),
      runTableOp events_triggers tbl op = .ok tbl1 → tbl <+: tbl1) ∧
    (∀ (tbl : List EventRow) (cond : EventRow → Bool)
        (change : EventRow → EventRow),
      runTableOp events_triggers tbl (.updateRows cond change) =
        .error "events is append-only") ∧
    (∀ (tbl : List EventRow) (cond : EventRow → Bool),
      runTableOp events_triggers tbl (.deleteRows cond) =
        .error "events is append-only") := by
  refine ⟨?_, ?_, ?_⟩
  · intro tbl op tbl1 h
    cases op with
    | insertRow r => cases h; exact List.prefix_append tbl [r]
    | updateRows cond change => cases h
    | deleteRows cond => cases h
  · intro tbl cond change; rfl
  · intro tbl cond; rfl

/-- Witness for C6 at a concrete journal: inserting appends and keeps the
old row; updating and deleting are aborted. -/
theorem events_append_only_witness :
    runTableOp events_triggers
        [⟨1, "sess_1", none, "session_created", "session created", ""⟩]
        (.insertRow ⟨2, "sess_1", none, "plan_imported", "plan v1 imported", "t"⟩) =
      .ok [⟨1, "sess_1", none, "session_created", "session created", ""⟩,
           ⟨2, "sess_1", none, "plan_imported", "plan v1 imported", "t"⟩] ∧
    ([⟨1, "sess_1", none, "session_created", "session created", ""⟩] :
        List EventRow) <+:
      [⟨1, "sess_1", none, "session_created", "session created", ""⟩,
       ⟨2, "sess_1", none, "plan_imported", "plan v1 imported", "t"⟩] ∧
    runTableOp events_triggers
        [⟨1, "sess_1", none, "session_created", "session created", ""⟩]
        (.updateRows (fun e => e.id == 1) (fun e => { e with summary := "x" })) =
      .error "events is append-only" ∧
    runTableOp events_triggers
        [⟨1, "sess_1", none, "session_created", "session created", ""⟩]
        (.deleteRows (fun e => e.id == 1)) =
      .error "events is append-only" := by
  refine ⟨rfl, ?_, ?_, ?_⟩
  · exact events_append_only.1
      [⟨1, "sess_1", none, "session_created", "session created", ""⟩]
      (.insertRow ⟨2, "sess_1", none, "plan_imported", "plan v1 imported", "t"⟩)
      _ rfl
  · exact events_append_only.2.1
      [⟨1, "sess_1", none, "session_created", "session created", ""⟩]
      (fun e => e.id == 1) (fun e => { e with summary := "x" })
  · exact events_append_only.2.2
      [⟨1, "sess_1", none, "session_created", "session created", ""⟩]
      (fun e => e.id == 1)

/-- Whether `q` occurs as a contiguous sublist of `s`. -/
def charsContain : List Char → List Char → Bool
  | q, [] => q.isEmpty
  | q, c :: rest => q.isPrefixOf (c :: rest) || charsContain q rest

/-- The characters of `s`, lower-cased. -/
def lowerChars (s : String) : List Char :=
  s.toList.map Char.toLower

/-- SQLite `LIKE '%q%'` on ASCII text: case-insensitive substring test. -/
def likeContains (s q : String) : Bool :=
  charsContain (lowerChars q) (lowerChars s)

/-- From `search_events` in `calt/daemon/api.py`: the LIKE fallback taken
when the FTS query raises `sqlite3.OperationalError`.  It filters the
session's events by `summary LIKE ? OR payload_text LIKE ?` and orders by
`id DESC`; the table is kept in ascending-id (insertion) order, so the
descending order is its reverse. -/
def search_events_fallback (events : List EventRow) (sid q : String) :
    List EventRow :=
  (events.filter fun e =>
    e.session_id == sid && (likeContains e.summary q || likeContains e.payload_text q)).reverse

/-- From `search_events` in `calt/daemon/api.py`: the no-query path, the
session's latest 100 events ordered `id DESC`. -/
def search_events_no_query (events : List EventRow) (sid : String) :
    List EventRow :=
  ((events.filter fun e => e.session_id == sid).reverse).take 100

/-- The fallback scan as the specification states it (a case-insensitive
substring scan over `event_type`, `summary`, and `payload_text`); kept
separately from `search_events_fallback` to compare the two. -/
def spec_fallback_scan (events : List EventRow) (sid q : String) :
    List EventRow :=
  (events.filter fun e =>
    e.session_id == sid &&
      (likeContains e.event_type q || likeContains e.summary q ||
        likeContains e.payload_text q)).reverse

/-- C8 (code bug evidence): the LIKE fallback in `search_events` scans only
`summary` and `payload_text`, so an event matched only through its
`event_type` is dropped, while the scan described by the spec (and asserted
by `test_search_events_includes_event_type_in_like_fallback`) returns it.
The input mirrors that test: a `step_executed` event searched for with
`q = "step_executed"` after the FTS table is gone. -/
theorem search_events_fallback_misses_event_type :
    search_events_fallback
        [⟨5, "sess_1", some 1, "step_executed", "step step_001 executed",
          "\x7b\"tool\": \"list_dir\", \"runtime_status\": \"succeeded\"\x7d"⟩]
        "sess_1" "step_executed" = [] ∧
    likeContains "step_executed" "step_executed" = true ∧
    spec_fallback_scan
        [⟨5, "sess_1", some 1, "step_executed", "step step_001 executed",
          "\x7b\"tool\": \"list_dir\", \"runtime_status\": \"succeeded\"\x7d"⟩]
        "sess_1" "step_executed" =
      [⟨5, "sess_1", some 1, "step_executed", "step step_001 executed",
        "\x7b\"tool\": \"list_dir\", \"runtime_status\": \"succeeded\"\x7d"⟩] := by
  exact ⟨by decide, by decide, by decide⟩

/-- A row of the `steps` table as `execute_step` sees it (fields used by the
final status update in `calt/daemon/api.py`). -/
structure StepsRow where
  id : Nat
  plan_id : Nat
  step_key : String
  status : WorkflowStatus
deriving DecidableEq, Repr

/-- From `execute_step` in `calt/daemon/api.py`: `UPDATE steps SET status = ?
WHERE id = ?`. -/
def update_step_status (steps : List StepsRow) (sid : Nat)
    (st : WorkflowStatus) : List StepsRow :=
  steps.map fun s => if s.id == sid then { s with status := st } else s

/-- From `execute_step` in `calt/daemon/api.py`: `SELECT COUNT(*) FROM steps
WHERE plan_id = ? AND status != 'succeeded'`. -/
def remaining_count (steps : List StepsRow) (plan_id : Nat) : Nat :=
  (steps.filter fun s => s.plan_id == plan_id && !(s.status == succeeded)).length

/-- From `execute_step` in `calt/daemon/api.py` (the tail after the tool
ran): updates the executed step's row to the run outcome and computes the
session status that is persisted — `failed` when the step failed, otherwise
`succeeded` when no step of the plan remains non-succeeded, otherwise
`awaiting_step_approval`.  Returns the updated step rows and that session
status. -/
def execute_step_finalize (steps : List StepsRow) (step : StepsRow)
    (step_status : WorkflowStatus) : List StepsRow × WorkflowStatus :=
  let steps1 := update_step_status steps step.id step_status
  let session_status :=
    if step_status == failed then failed
    else if remaining_count steps1 step.plan_id == 0 then succeeded
    else awaiting_step_approval
  (steps1, session_status)

/-- The roll-up of a plan's step statuses as the claim states it: `failed`
when the executed step failed, `succeeded` when every step of the plan has
status `succeeded`, `awaiting_step_approval` otherwise. -/
def claim_rollup (plan_statuses : List WorkflowStatus)
    (executed_failed : Bool) : WorkflowStatus :=
  if executed_failed then failed
  else if plan_statuses.all fun s => s == succeeded then succeeded
  else awaiting_step_approval

theorem remaining_count_zero (steps : List StepsRow) (plan_id : Nat) :
    (remaining_count steps plan_id == 0) =
      ((steps.filter fun s => s.plan_id == plan_id).map StepsRow.status).all
        (fun s => s == succeeded) := by
  induction steps with
  | nil => rfl
  | cons s rest ih =>
    simp only [remaining_count, List.filter, List.map] at *
    rcases hp : s.plan_id == plan_id with _ | _
    · simpa [hp, Bool.and_eq_true] using ih
    · rcases hs : s.status == succeeded with _ | _ <;>
        simp_all [hp, hs, remaining_count]

/-- C7: after `execute_step` persists its updates, the session status equals
the roll-up of the current plan's (post-update) step statuses: `failed` when
the executed step failed, `succeeded` when every step of the plan is
`succeeded`, `awaiting_step_approval` otherwise. -/
theorem execute_step_session_rollup (steps : List StepsRow) (step : StepsRow)
    (step_status : WorkflowStatus)
    (hout : step_status = succeeded ∨ step_status = failed) :
    (execute_step_finalize steps step step_status).2 =
      claim_rollup
        (((execute_step_finalize steps step step_status).1.filter
            (fun s => s.plan_id == step.plan_id)).map StepsRow.status)
        (step_status == failed) := by
  rcases hout with h | h <;> subst h
  · simp only [execute_step_finalize, claim_rollup, remaining_count_zero]
  · simp [execute_step_finalize, claim_rollup]

/-- Witness for C7: a two-step plan where the executed step succeeds while
the other step is still pending; the persisted session status is
`awaiting_step_approval`, matching the roll-up. -/
theorem execute_step_session_rollup_witness :
    (execute_step_finalize
        [⟨1, 7, "step_a", awaiting_step_approval⟩, ⟨2, 7, "step_b", pending⟩]
        ⟨1, 7, "step_a", awaiting_step_approval⟩ succeeded).2 =
      claim_rollup
        (((execute_step_finalize
            [⟨1, 7, "step_a", awaiting_step_approval⟩, ⟨2, 7, "step_b", pending⟩]
            ⟨1, 7, "step_a", awaiting_step_approval⟩ succeeded).1.filter
          (fun s => s.plan_id == (7 : Nat))).map StepsRow.status)
        (succeeded == failed) :=
  execute_step_session_rollup
    [⟨1, 7, "step_a", awaiting_step_approval⟩, ⟨2, 7, "step_b", pending⟩]
    ⟨1, 7, "step_a", awaiting_step_approval⟩ succeeded (Or.inl rfl)

/-- A filesystem path as its list of components. -/
abbrev FsPath := List String

/-- A filesystem: an association of paths to text file contents. -/
abbrev FS := List (FsPath × String)

/-- Reads the file at `p`, if present. -/
def fsRead (fs : FS) (p : FsPath) : Option String :=
  (fs.find? fun e => e.1 == p).map fun e => e.2

/-- Writes `content` at `p` (`Path.write_text` with the parent directory
created on demand). -/
def fsWrite (fs : FS) (p : FsPath) (content : String) : FS :=
  (p, content) :: fs.filter fun e => !(e.1 == p)

/-- Component-wise path resolution: `.` is dropped, `..` pops, other
components are appended (`Path.resolve` without symlinks). -/
def resolveComponents (acc : FsPath) : List String → FsPath
  | [] => acc
  | "" :: rest => resolveComponents acc rest
  | "." :: rest => resolveComponents acc rest
  | ".." :: rest => resolveComponents acc.dropLast rest
  | c :: rest => resolveComponents (acc ++ [c]) rest

/-- Splits character lists at `/`, keeping empty components. -/
def splitSlashAux (cur : List Char) : List Char → List String
  | [] => [String.mk cur.reverse]
  | c :: rest =>
    if c = '/' then String.mk cur.reverse :: splitSlashAux [] rest
    else splitSlashAux (c :: cur) rest

/-- Splits a posix path string into its `/`-separated components. -/
def splitSlash (s : String) : List String :=
  splitSlashAux [] s.toList

/-- From `_resolve_workspace_path` in `calt/tools/write_ops.py`: resolves
`relative_path` against the workspace root and rejects any resolved target
that escapes it (`WorkspaceBoundaryError`); returns the resolved target and
the workspace-relative canonical path as posix text. -/
def resolve_workspace_path (workspace_root : FsPath) (relative_path : String) :
    Except String (FsPath × String) :=
  let target := resolveComponents workspace_root (splitSlash relative_path)
  if workspace_root.isPrefixOf target then
    .ok (target, String.intercalate "/" (target.drop workspace_root.length))
  else
    .error ("path '" ++ relative_path ++ "' is outside workspace")

/-- From `_read_text_if_exists` in `calt/tools/write_ops.py`: a missing file
reads as the empty string. -/
def read_text_if_exists (fs : FS) (p : FsPath) : String :=
  (fsRead fs p).getD ""

/-- The preview payload built by `_build_preview_payload` in
`calt/tools/write_ops.py`. -/
structure PreviewPayload where
  path : String
  changed : Bool
  diff : String
  old_sha256 : String
  new_sha256 : String
deriving DecidableEq, Repr

/-- From `_build_preview_payload` in `calt/tools/write_ops.py`, with the
hash (`_sha256`) and the unified diff (`_build_diff`) as parameters: no
verified property depends on their concrete values. -/
def build_preview_payload (sha : String → String)
    (diffFn : String → String → String → String)
    (path before after : String) : PreviewPayload :=
  { path := path
    changed := !(before == after)
    diff := diffFn before after path
    old_sha256 := sha before
    new_sha256 := sha after }

/-- From `_compute_write_preview` in `calt/tools/write_ops.py`. -/
def compute_write_preview (sha : String → String)
    (diffFn : String → String → String → String)
    (fs : FS) (workspace_root : FsPath) (path content : String) :
    Except String (FsPath × PreviewPayload) :=
  match resolve_workspace_path workspace_root path with
  | .error e => .error e
  | .ok (target, canonical) =>
    let before := read_text_if_exists fs target
    .ok (target, build_preview_payload sha diffFn canonical before content)

/-- From `write_file_preview` in `calt/tools/write_ops.py`: computes the
preview and does not touch the file. -/
def write_file_preview (sha : String → String)
    (diffFn : String → String → String → String)
    (fs : FS) (workspace_root : FsPath) (path content : String) :
    Except String PreviewPayload :=
  match compute_write_preview sha diffFn fs workspace_root path content with
  | .error e => .error e
  | .ok (_, payload) => .ok payload

/-- From `_validate_preview` in `calt/tools/write_ops.py`: the provided
preview must agree with the recomputed one on `path`, `diff` and
`new_sha256`, else `PreviewMismatchError`. -/
def validate_preview (provided actual : PreviewPayload) : Except String Unit :=
  if provided.path == actual.path && provided.diff == actual.diff &&
      provided.new_sha256 == actual.new_sha256 then
    .ok ()
  else
    .error "provided preview does not match current file state"

/-- From `write_file_apply` in `calt/tools/write_ops.py`: recomputes the
preview, validates a supplied preview against it, then writes the file;
returns the recomputed payload and the new filesystem. -/
def write_file_apply (sha : String → String)
    (diffFn : String → String → String → String)
    (fs : FS) (workspace_root : FsPath) (path content : String)
    (preview : Option PreviewPayload) :
    Except String (PreviewPayload × FS) :=
  match compute_write_preview sha diffFn fs workspace_root path content with
  | .error e => .error e
  | .ok (target, actual) =>
    match preview with
    | some p =>
      match validate_preview p actual with
      | .error e => .error e
      | .ok _ => .ok (actual, fsWrite fs target content)
    | none => .ok (actual, fsWrite fs target content)

/-- C9: round-trip of the two-phase write.  For every hash and diff
function, filesystem, workspace root, in-workspace path and content,
`write_file_preview` followed by `write_file_apply` with that preview
succeeds (no `PreviewMismatchError`); afterwards the target file holds
exactly the intended content, and its hash equals the preview's
`new_sha256`. -/
theorem write_preview_then_apply_roundtrip
    (sha : String → String) (diffFn : String → String → String → String)
    (fs : FS) (workspace_root : FsPath) (path content : String)
    (target : FsPath) (canonical : String)
    (hin : resolve_workspace_path workspace_root path = .ok (target, canonical)) :
    ∃ pv fs1,
      write_file_preview sha diffFn fs workspace_root path content = .ok pv ∧
      write_file_apply sha diffFn fs workspace_root path content (some pv) =
        .ok (pv, fs1) ∧
      fsRead fs1 target = some content ∧
      pv.new_sha256 = sha content := by
  refine ⟨build_preview_payload sha diffFn canonical
      (read_text_if_exists fs target) content, fsWrite fs target content,
    ?_, ?_, ?_, rfl⟩
  · simp [write_file_preview, compute_write_preview, hin]
  · simp [write_file_apply, compute_write_preview, hin, validate_preview]
  · simp [fsRead, fsWrite]

/-- Witness for C9 on a concrete workspace: an empty filesystem, root
`ws`, path `notes/memo.txt`, the identity hash and an empty diff. -/
theorem write_preview_then_apply_roundtrip_witness :
    ∃ pv fs1,
      write_file_preview (fun s => s) (fun _ _ _ => "") [] ["ws"]
          "notes/memo.txt" "after" = .ok pv ∧
      write_file_apply (fun s => s) (fun _ _ _ => "") [] ["ws"]
          "notes/memo.txt" "after" (some pv) = .ok (pv, fs1) ∧
      fsRead fs1 ["ws", "notes", "memo.txt"] = some "after" ∧
      pv.new_sha256 = (fun s : String => s) "after" :=
  write_preview_then_apply_roundtrip (fun s => s) (fun _ _ _ => "") [] ["ws"]
    "notes/memo.txt" "after" ["ws", "notes", "memo.txt"] "notes/memo.txt"
    (by decide)

/-- A row of the `plans` table (`SCHEMA_SQL` in `calt/storage/sqlite.py`);
`id` is the autoincrement key, `(session_id, version)` is unique. -/
structure PlanRowA where
  id : Nat
  session_id : String
  version : Nat
  title : String
deriving DecidableEq, Repr

/-- A row of the `steps` table (fields relevant to approvals). -/
structure StepRowA where
  id : Nat
  plan_id : Nat
  step_key : String
deriving DecidableEq, Repr

/-- A row of the `approvals` table; `step_id` references `steps` with
`ON DELETE SET NULL` (`source` / `user_id` columns omitted: the approval
queries in `execute_step` do not read them). -/
structure ApprovalRowA where
  session_id : String
  plan_id : Option Nat
  step_id : Option Nat
  approval_type : String
  approved : Bool
deriving DecidableEq, Repr

/-- The relational state touched by plan import and the approval gate, with
the autoincrement counters. -/
structure SchemaDb where
  plans : List PlanRowA
  steps : List StepRowA
  approvals : List ApprovalRowA
  next_plan_id : Nat
  next_step_id : Nat
deriving DecidableEq, Repr

/-- The `ON DELETE SET NULL` action of `approvals.step_id` when the steps
with the given ids are deleted. -/
def detach_step_approvals (approvals : List ApprovalRowA)
    (deleted : List Nat) : List ApprovalRowA :=
  approvals.map fun a =>
    match a.step_id with
    | some i => if deleted.contains i then { a with step_id := none } else a
    | none => a

/-- Fresh step rows inserted by `import_plan`, with autoincrement ids. -/
def fresh_steps (plan_id base : Nat) (keys : List String) : List StepRowA :=
  keys.enum.map fun e => { id := base + e.1, plan_id := plan_id, step_key := e.2 }

/-- From `import_plan` in `calt/daemon/api.py`: upserts the plan row by
`(session_id, version)` (`ON CONFLICT ... DO UPDATE` keeps the row's id),
deletes the plan's step rows — which sets the `step_id` of approvals
referencing them to NULL — and inserts the incoming steps as fresh rows. -/
def import_plan (db : SchemaDb) (sid : String) (version : Nat)
    (title : String) (keys : List String) : SchemaDb :=
  match db.plans.find? (fun q => q.session_id == sid && q.version == version) with
  | some p =>
    let deleted := (db.steps.filter fun s => s.plan_id == p.id).map StepRowA.id
    { plans := db.plans.map fun q =>
        if q.id == p.id then { q with title := title } else q
      steps := (db.steps.filter fun s => !(s.plan_id == p.id)) ++
        fresh_steps p.id db.next_step_id keys
      approvals := detach_step_approvals db.approvals deleted
      next_plan_id := db.next_plan_id
      next_step_id := db.next_step_id + keys.length }
  | none =>
    { plans := db.plans ++
        [{ id := db.next_plan_id, session_id := sid, version := version,
           title := title }]
      steps := db.steps ++ fresh_steps db.next_plan_id db.next_step_id keys
      approvals := db.approvals
      next_plan_id := db.next_plan_id + 1
      next_step_id := db.next_step_id + keys.length }

/-- From `approve_plan` in `calt/daemon/api.py`: inserts a plan approval. -/
def approve_plan (db : SchemaDb) (sid : String) (plan_id : Nat) : SchemaDb :=
  { db with approvals := db.approvals ++
      [{ session_id := sid, plan_id := some plan_id, step_id := none,
         approval_type := "plan", approved := true }] }

/-- From `approve_step` in `calt/daemon/api.py`: inserts a step approval
referencing the step row's id. -/
def approve_step (db : SchemaDb) (sid : String) (step : StepRowA) : SchemaDb :=
  { db with approvals := db.approvals ++
      [{ session_id := sid, plan_id := some step.plan_id,
         step_id := some step.id, approval_type := "step", approved := true }] }

/-- From `execute_step` in `calt/daemon/api.py`: the plan-approval lookup. -/
def plan_approved (db : SchemaDb) (sid : String) (plan_id : Nat) : Bool :=
  db.approvals.any fun a =>
    a.session_id == sid && a.plan_id == some plan_id &&
      a.approval_type == "plan" && a.approved

/-- From `execute_step` in `calt/daemon/api.py`: the step-approval lookup. -/
def step_approved (db : SchemaDb) (sid : String) (step_id : Nat) : Bool :=
  db.approvals.any fun a =>
    a.session_id == sid && a.step_id == some step_id &&
      a.approval_type == "step" && a.approved

/-- From `execute_step` in `calt/daemon/api.py`: execution is refused with
HTTP 409 unless both approvals exist. -/
def approval_gate (db : SchemaDb) (sid : String) (step : StepRowA) :
    Except String Unit :=
  if plan_approved db sid step.plan_id && step_approved db sid step.id then
    .ok ()
  else
    .error "plan and step approvals are required before execution"

/-- Id-freshness of the autoincrement counters: every step id, and every
step id referenced by an approval, is below `next_step_id`. -/
def freshIds (db : SchemaDb) : Prop :=
  (∀ s ∈ db.steps, s.id < db.next_step_id) ∧
  (∀ a ∈ db.approvals, ∀ i, a.step_id = some i → i < db.next_step_id)

theorem detach_keeps_bound {approvals : List ApprovalRowA}
    {deleted : List Nat} {n : Nat}
    (h : ∀ a ∈ approvals, ∀ i, a.step_id = some i → i < n) :
    ∀ a ∈ detach_step_approvals approvals deleted, ∀ i,
      a.step_id = some i → i < n := by
  intro a ha i hi
  rcases List.mem_map.mp ha with ⟨a0, ha0, hfa⟩
  rcases hcase : a0.step_id with _ | j
  · rw [← hfa] at hi; simp [hcase] at hi
  · by_cases hd : j ∈ deleted
    · rw [← hfa] at hi; simp [hcase, hd] at hi
    · rw [← hfa] at hi; simp [hcase, hd] at hi
      exact h a0 ha0 i (by rw [hcase, hi])

theorem detach_keeps_plan_approved {approvals : List ApprovalRowA}
    {deleted : List Nat} {sid : String} {plan_id : Nat} :
    (detach_step_approvals approvals deleted).any
        (fun a => a.session_id == sid && a.plan_id == some plan_id &&
          a.approval_type == "plan" && a.approved) =
      approvals.any
        (fun a => a.session_id == sid && a.plan_id == some plan_id &&
          a.approval_type == "plan" && a.approved) := by
  induction approvals with
  | nil => rfl
  | cons a rest ih =>
    have hpa :
        ((match a.step_id with
          | some i =>
            if deleted.contains i = true then
              ({ a with step_id := none } : ApprovalRowA)
            else a
          | none => a).session_id == sid &&
          (match a.step_id with
            | some i =>
              if deleted.contains i = true then
                ({ a with step_id := none } : ApprovalRowA)
              else a
            | none => a).plan_id == some plan_id &&
          (match a.step_id with
            | some i =>
              if deleted.contains i = true then
                ({ a with step_id := none } : ApprovalRowA)
              else a
            | none => a).approval_type == "plan" &&
          (match a.step_id with
            | some i =>
              if deleted.contains i = true then
                ({ a with step_id := none } : ApprovalRowA)
              else a
            | none => a).approved) =
        (a.session_id == sid && a.plan_id == some plan_id &&
          a.approval_type == "plan" && a.approved) := by
      rcases hcase : a.step_id with _ | j
      · simp [hcase]
      · by_cases hd : j ∈ deleted <;> simp [hcase, hd]
    unfold detach_step_approvals at *
    simp only [List.map_cons, List.any_cons]
    rw [ih, hpa]

/-- C10: re-importing a plan for an existing `(session_id, version)` deletes
and re-creates its step rows, so `ON DELETE SET NULL` detaches every step
approval that referenced a step of that plan; no approval recorded before
the re-import step-approves any step of the re-imported plan, so executing
any of them is refused with the 409 detail
`"plan and step approvals are required before execution"` until a fresh
step approval is recorded, while a prior plan-level approval still counts
because the plan row keeps its id. -/
theorem reimport_detaches_step_approvals (db : SchemaDb) (sid : String)
    (v : Nat) (title : String) (keys : List String) (p : PlanRowA) (db1 : SchemaDb)
    (hfind : db.plans.find? (fun q => q.session_id == sid && q.version == v) = some p)
    (hinv : freshIds db)
    (hdb1 : db1 = import_plan db sid v title keys) :
    (∀ a ∈ db.approvals, ∀ i, a.step_id = some i →
      (∃ s ∈ db.steps, s.plan_id = p.id ∧ s.id = i) →
      ({ a with step_id := none } : ApprovalRowA) ∈ db1.approvals) ∧
    (plan_approved db sid p.id = true → plan_approved db1 sid p.id = true) ∧
    (∀ s ∈ db1.steps, s.plan_id = p.id → step_approved db1 sid s.id = false) ∧
    (∀ s ∈ db1.steps, s.plan_id = p.id →
      approval_gate db1 sid s =
        .error "plan and step approvals are required before execution") ∧
    (plan_approved db sid p.id = true →
      ∀ s ∈ db1.steps, s.plan_id = p.id →
        approval_gate (approve_step db1 sid s) sid s = .ok ()) := by
  have hdb1e : db1 =
      { plans := db.plans.map fun q =>
          if q.id == p.id then { q with title := title } else q
        steps := (db.steps.filter fun s => !(s.plan_id == p.id)) ++
          fresh_steps p.id db.next_step_id keys
        approvals := detach_step_approvals db.approvals
          ((db.steps.filter fun s => s.plan_id == p.id).map StepRowA.id)
        next_plan_id := db.next_plan_id
        next_step_id := db.next_step_id + keys.length } := by
    rw [hdb1]; unfold import_plan; rw [hfind]
  have hnewstep : ∀ s ∈ db1.steps, s.plan_id = p.id →
      db.next_step_id ≤ s.id := by
    intro s hs hp
    rw [hdb1e] at hs
    rcases List.mem_append.mp hs with hold | hnew
    · rcases List.mem_filter.mp hold with ⟨_, hcond⟩
      simp [hp] at hcond
    · rcases List.mem_map.mp hnew with ⟨e, _, hse⟩
      rw [← hse]
      exact Nat.le_add_right _ _
  have hstepapp : ∀ s ∈ db1.steps, s.plan_id = p.id →
      step_approved db1 sid s.id = false := by
    intro s hs hp
    rw [Bool.eq_false_iff]
    intro htrue
    unfold step_approved at htrue
    rcases List.any_eq_true.mp htrue with ⟨a, ha, hcond⟩
    have hbound := detach_keeps_bound hinv.2 a (by rw [hdb1e] at ha; exact ha)
    have hsid : a.step_id = some s.id := by
      simp only [Bool.and_eq_true, beq_iff_eq] at hcond
      exact hcond.1.1.2
    have := hbound s.id hsid
    have := hnewstep s hs hp
    omega
  refine ⟨?_, ?_, hstepapp, ?_, ?_⟩
  · intro a ha i hi ⟨s, hs, hsp, hsi⟩
    rw [hdb1e]
    simp only []
    unfold detach_step_approvals
    have hidel : i ∈ (db.steps.filter fun t => t.plan_id == p.id).map
        StepRowA.id := by
      have hsf : s ∈ db.steps.filter fun t => t.plan_id == p.id :=
        List.mem_filter.mpr ⟨hs, by simp [hsp]⟩
      exact List.mem_map.mpr ⟨s, hsf, hsi⟩
    refine List.mem_map.mpr ⟨a, ha, ?_⟩
    rw [hi]
    simp [hidel]
  · intro happ
    unfold plan_approved at happ
    rw [hdb1e]
    unfold plan_approved
    simp only []
    rw [detach_keeps_plan_approved]
    exact happ
  · intro s hs hp
    unfold approval_gate
    rw [hstepapp s hs hp]
    simp
  · intro happ s hs hp
    unfold approval_gate
    have hplan1 : plan_approved db1 sid p.id = true := by
      unfold plan_approved at happ ⊢
      rw [hdb1e]
      simp only []
      rw [detach_keeps_plan_approved]
      exact happ
    have hplan2 : plan_approved (approve_step db1 sid s) sid s.plan_id = true := by
      unfold plan_approved at hplan1 ⊢
      unfold approve_step
      simp only [List.any_append]
      rw [hp]
      rw [hplan1]
      simp
    have hstep2 : step_approved (approve_step db1 sid s) sid s.id = true := by
      unfold step_approved approve_step
      simp [List.any_append]
    rw [hplan2, hstep2]
    simp

/-- Witness for C10: a one-step plan, both approvals recorded, then the plan
is re-imported for the same `(session_id, version)`. -/
theorem reimport_detaches_step_approvals_witness :
    (∀ a ∈ ([⟨"sess", some 0, none, "plan", true⟩,
        ⟨"sess", some 0, some 0, "step", true⟩] : List ApprovalRowA),
      ∀ i, a.step_id = some i →
      (∃ s ∈ ([⟨0, 0, "s1"⟩] : List StepRowA), s.plan_id = 0 ∧ s.id = i) →
      ({ a with step_id := none } : ApprovalRowA) ∈
        (import_plan
          ⟨[⟨0, "sess", 1, "t"⟩], [⟨0, 0, "s1"⟩],
           [⟨"sess", some 0, none, "plan", true⟩,
            ⟨"sess", some 0, some 0, "step", true⟩], 1, 1⟩
          "sess" 1 "t2" ["s1"]).approvals) ∧
    (plan_approved
        ⟨[⟨0, "sess", 1, "t"⟩], [⟨0, 0, "s1"⟩],
         [⟨"sess", some 0, none, "plan", true⟩,
          ⟨"sess", some 0, some 0, "step", true⟩], 1, 1⟩ "sess" 0 = true →
      plan_approved
        (import_plan
          ⟨[⟨0, "sess", 1, "t"⟩], [⟨0, 0, "s1"⟩],
           [⟨"sess", some 0, none, "plan", true⟩,
            ⟨"sess", some 0, some 0, "step", true⟩], 1, 1⟩
          "sess" 1 "t2" ["s1"]) "sess" 0 = true) ∧
    (∀ s ∈ (import_plan
        ⟨[⟨0, "sess", 1, "t"⟩], [⟨0, 0, "s1"⟩],
         [⟨"sess", some 0, none, "plan", true⟩,
          ⟨"sess", some 0, some 0, "step", true⟩], 1, 1⟩
        "sess" 1 "t2" ["s1"]).steps, s.plan_id = 0 →
      step_approved
        (import_plan
          ⟨[⟨0, "sess", 1, "t"⟩], [⟨0, 0, "s1"⟩],
           [⟨"sess", some 0, none, "plan", true⟩,
            ⟨"sess", some 0, some 0, "step", true⟩], 1, 1⟩
          "sess" 1 "t2" ["s1"]) "sess" s.id = false) ∧
    (∀ s ∈ (import_plan
        ⟨[⟨0, "sess", 1, "t"⟩], [⟨0, 0, "s1"⟩],
         [⟨"sess", some 0, none, "plan", true⟩,
          ⟨"sess", some 0, some 0, "step", true⟩], 1, 1⟩
        "sess" 1 "t2" ["s1"]).steps, s.plan_id = 0 →
      approval_gate
        (import_plan
          ⟨[⟨0, "sess", 1, "t"⟩], [⟨0, 0, "s1"⟩],
           [⟨"sess", some 0, none, "plan", true⟩,
            ⟨"sess", some 0, some 0, "step", true⟩], 1, 1⟩
          "sess" 1 "t2" ["s1"]) "sess" s =
        .error "plan and step approvals are required before execution") ∧
    (plan_approved
        ⟨[⟨0, "sess", 1, "t"⟩], [⟨0, 0, "s1"⟩],
         [⟨"sess", some 0, none, "plan", true⟩,
          ⟨"sess", some 0, some 0, "step", true⟩], 1, 1⟩ "sess" 0 = true →
      ∀ s ∈ (import_plan
          ⟨[⟨0, "sess", 1, "t"⟩], [⟨0, 0, "s1"⟩],
           [⟨"sess", some 0, none, "plan", true⟩,
            ⟨"sess", some 0, some 0, "step", true⟩], 1, 1⟩
          "sess" 1 "t2" ["s1"]).steps, s.plan_id = 0 →
        approval_gate
          (approve_step
            (import_plan
              ⟨[⟨0, "sess", 1, "t"⟩], [⟨0, 0, "s1"⟩],
               [⟨"sess", some 0, none, "plan", true⟩,
                ⟨"sess", some 0, some 0, "step", true⟩], 1, 1⟩
              "sess" 1 "t2" ["s1"]) "sess" s) "sess" s = .ok ()) :=
  reimport_detaches_step_approvals
    ⟨[⟨0, "sess", 1, "t"⟩], [⟨0, 0, "s1"⟩],
     [⟨"sess", some 0, none, "plan", true⟩,
      ⟨"sess", some 0, some 0, "step", true⟩], 1, 1⟩
    "sess" 1 "t2" ["s1"] ⟨0, "sess", 1, "t"⟩ _
    (by decide)
    (by
      constructor
      · intro s hs
        fin_cases hs
        decide
      · intro a ha i hi
        fin_cases ha <;> simp_all)
    rfl

/-- JSON-shaped values, the shape of step `inputs` and run outputs. -/
inductive Json where
  | null
  | bool (b : Bool)
  | num (n : Int)
  | str (s : String)
  | arr (items : List Json)
  | obj (fields : List (String × Json))

/-- Looks up a key in a JSON object's field list. -/
def getField (fields : List (String × Json)) (k : String) : Option Json :=
  (fields.find? fun f => f.1 == k).map fun f => f.2

/-- Whether a JSON value is an object carrying the key. -/
def jsonHasKey (j : Json) (k : String) : Bool :=
  match j with
  | .obj fields => fields.any fun f => f.1 == k
  | _ => false

/-- Characters allowed in a step key or field name of a placeholder. -/
def placeholderChar (c : Char) : Bool :=
  c.isAlphanum || c == '_' || c == '-'

/-- A well-formed name component of a placeholder. -/
def placeholderName (s : String) : Bool :=
  !(s == "") && s.toList.all placeholderChar

/-- Splits character lists at `.`, keeping empty components. -/
def splitDotAux (cur : List Char) : List Char → List String
  | [] => [String.mk cur.reverse]
  | c :: rest =>
    if c = '.' then String.mk cur.reverse :: splitDotAux [] rest
    else splitDotAux (c :: cur) rest

/-- Splits a string into its `.`-separated components. -/
def splitDot (s : String) : List String :=
  splitDotAux [] s.toList

/-- The characters of the literal prefix of every placeholder. -/
def placeholderLead : List Char :=
  "$\x7bsteps.".toList

/-- The closing brace character of a placeholder. -/
def closingBrace : Char :=
  Char.ofNat 125

/-- Modelled from the spec: the reference-resolver pattern match.  A string
of the exact shape `$\x7bsteps.<step_key>.output[.<field>...]\x7d` yields the
step key and the field path; everything else yields `none`.  The resolver
itself is absent from the daemon sources under `src/` (only the integration
tests exercise it), so this follows §4.4 of the specification. -/
def parsePlaceholder (s : String) : Option (String × List String) :=
  let cs := s.toList
  if placeholderLead.isPrefixOf cs && cs.getLast? == some closingBrace then
    match splitDotAux [] ((cs.drop 8).dropLast) with
    | key :: out :: fields =>
      if out == "output" && placeholderName key &&
          fields.all placeholderName then
        some (key, fields)
      else none
    | _ => none
  else none

/-- A prior run as the resolver sees it: its insertion-ordered row with the
executed step's key, terminal status, failure reason, and decoded JSON
output. -/
structure PriorRun where
  id : Nat
  step_key : String
  status : WorkflowStatus
  failure_reason : Option String
  output : Json

/-- Modelled from the spec: the most recent successful run of `key` in the
session (the runs list is kept in ascending insertion order). -/
def latestSuccessfulRun (runs : List PriorRun) (key : String) :
    Option PriorRun :=
  (runs.filter fun r => r.step_key == key && r.status == succeeded).getLast?

/-- Modelled from the spec: navigation of the field path into the JSON
output; intermediate non-mapping nodes fail resolution. -/
def navigateFields (j : Json) : List String → Option Json
  | [] => some j
  | f :: rest =>
    match j with
    | .obj fields =>
      match getField fields f with
      | some v => navigateFields v rest
      | none => none
    | _ => none

/-- Modelled from the spec: resolution of one string leaf.  Non-matching
strings are left untouched; a matching placeholder is replaced by the field
path into the latest successful run's output, and failure to find such a run
or to navigate the path rejects with the quoted 409 detail. -/
def resolveString (runs : List PriorRun) (s : String) : Except String Json :=
  match parsePlaceholder s with
  | none => .ok (.str s)
  | some (key, fields) =>
    match latestSuccessfulRun runs key with
    | none => .error ("step input reference could not be resolved: " ++ s)
    | some r =>
      match navigateFields r.output fields with
      | some v => .ok v
      | none => .error ("step input reference could not be resolved: " ++ s)

mutual

/-- Modelled from the spec: the recursive structural walk over step inputs
replacing placeholder strings (§4.4); substitution is structural. -/
def resolveInputs (runs : List PriorRun) : Json → Except String Json
  | .null => .ok .null
  | .bool b => .ok (.bool b)
  | .num n => .ok (.num n)
  | .str s => resolveString runs s
  | .arr items =>
    match resolveArr runs items with
    | .ok items1 => .ok (.arr items1)
    | .error e => .error e
  | .obj fields =>
    match resolveObj runs fields with
    | .ok fields1 => .ok (.obj fields1)
    | .error e => .error e

/-- Resolves every item of a JSON array. -/
def resolveArr (runs : List PriorRun) : List Json → Except String (List Json)
  | [] => .ok []
  | x :: xs =>
    match resolveInputs runs x with
    | .error e => .error e
    | .ok v =>
      match resolveArr runs xs with
      | .error e => .error e
      | .ok vs => .ok (v :: vs)

/-- Resolves every value of a JSON object, keeping the keys. -/
def resolveObj (runs : List PriorRun) :
    List (String × Json) → Except String (List (String × Json))
  | [] => .ok []
  | f :: fs =>
    match resolveInputs runs f.2 with
    | .error e => .error e
    | .ok v =>
      match resolveObj runs fs with
      | .error e => .error e
      | .ok vs => .ok ((f.1, v) :: vs)

end

/-- Resolution never renames or drops object keys. -/
theorem resolveObj_keys (runs : List PriorRun)
    (fields fields1 : List (String × Json))
    (h : resolveObj runs fields = .ok fields1) :
    fields1.map Prod.fst = fields.map Prod.fst := by
  induction fields generalizing fields1 with
  | nil => cases h; rfl
  | cons f fs ih =>
    unfold resolveObj at h
    rcases hv : resolveInputs runs f.2 with e | v
    · rw [hv] at h; cases h
    · rw [hv] at h
      rcases hvs : resolveObj runs fs with e | vs
      · rw [hvs] at h; cases h
      · rw [hvs] at h
        cases h
        simp [ih vs hvs]

/-- The two safety profiles of a session (§3 of the spec). -/
inductive SafetyProfile where
  | strict
  | dev
deriving DecidableEq, Repr

/-- The two session modes (§3 of the spec and `calt/core/models.py`). -/
inductive EngineMode where
  | normal
  | dry_run
deriving DecidableEq, Repr

/-- Step risk levels (§3 of the spec). -/
inductive RiskLevel where
  | low
  | medium
  | high
deriving DecidableEq, Repr

/-- Modelled from the spec: the session fields the execute-step pipeline
reads and writes (§3, §4.5); the richer session record (with
`safety_profile` and `needs_replan`) is absent from the daemon sources under
`src/`. -/
structure EngineSession where
  status : WorkflowStatus
  needs_replan : Bool
  safety_profile : SafetyProfile
  mode : EngineMode
  plan_version : Option Nat

/-- A step of the current plan as the pipeline sees it. -/
structure EngineStep where
  step_key : String
  tool_name : String
  risk : RiskLevel
  inputs : Json

/-- An event emitted by the engine (fields the claims inspect). -/
structure EngineEvent where
  event_type : String
  summary : String
  payload_text : String
deriving DecidableEq, Repr

/-- Modelled from the spec: the per-session state the execute-step pipeline
touches — session row, recorded approvals, the current plan's step statuses,
prior runs, the event journal, the workspace filesystem, and the run-id
counter. -/
structure EngineState where
  session : EngineSession
  plan_approved : Bool
  step_approved : Bool
  plan_steps : List (String × WorkflowStatus)
  runs : List PriorRun
  events : List EngineEvent
  fs : FS
  next_run_id : Nat

/-- The HTTP-visible outcome of an ExecuteStep call: a 409 conflict with a
detail, or a 200 response carrying the run status and error. -/
inductive ExecuteOutcome where
  | conflict (detail : String)
  | ok (status : WorkflowStatus) (error : Option String)
deriving DecidableEq, Repr

/-- The full result of an ExecuteStep call: HTTP outcome, post state, and
the tool invocation the executor received (`none` when no handler ran). -/
structure ExecuteResult where
  outcome : ExecuteOutcome
  state : EngineState
  invoked : Option (String × Json)

/-- The object field of a JSON value, if any. -/
def jsonField (j : Json) (k : String) : Option Json :=
  match j with
  | .obj fields => getField fields k
  | _ => none

/-- Whether an optional JSON value is the string `s`. -/
def isStrVal (o : Option Json) (s : String) : Bool :=
  match o with
  | some (.str t) => t == s
  | _ => false

/-- Modelled from the spec (§4.5 step 4): the invocation mutates the
workspace when the tool is `write_file_apply`, or `apply_patch` with
`mode = "apply"`. -/
def mutatingInvocation (tool : String) (inputs : Json) : Bool :=
  tool == "write_file_apply" ||
    (tool == "apply_patch" && isStrVal (jsonField inputs "mode") "apply")

/-- Modelled from the spec (§4.3 preview-gate): under the `strict` profile
the gate fires when a mutating invocation carries no `preview` input. -/
def previewGateBlocks (tool : String) (resolved : Json) : Bool :=
  mutatingInvocation tool resolved && !(jsonHasKey resolved "preview")

/-- `UPDATE steps SET status = ?` for the step with the given key. -/
def updatePlanStep (steps : List (String × WorkflowStatus)) (key : String)
    (st : WorkflowStatus) : List (String × WorkflowStatus) :=
  steps.map fun p => if p.1 == key then (p.1, st) else p

/-- Modelled from the spec: the ExecuteStep pipeline of §4.5 (needs-replan
check, approval check, high-risk confirmation, dry-run refusal, reference
resolution, preview gate, tool invocation, session roll-up per invariant 6,
event emission).  The executor is a parameter `invoke`; the pipeline is
absent from the daemon sources under `src/` (only the integration and e2e
tests exercise it). -/
def executeStepSpec (invoke : String → Json → FS → Except String (Json × FS))
    (st : EngineState) (step : EngineStep) (confirm_high_risk : Bool) :
    ExecuteResult :=
  if st.session.needs_replan then
    ⟨.conflict "session needs replan", st, none⟩
  else if !(st.plan_approved && st.step_approved) then
    ⟨.conflict "plan and step approvals are required before execution", st, none⟩
  else if step.risk == .high && !confirm_high_risk then
    ⟨.conflict "confirm_high_risk=true required", st, none⟩
  else if st.session.mode == .dry_run &&
      mutatingInvocation step.tool_name step.inputs then
    ⟨.conflict "dry_run mode refuses mutating tool", st, none⟩
  else
    match resolveInputs st.runs step.inputs with
    | .error e => ⟨.conflict e, st, none⟩
    | .ok resolved =>
      if st.session.safety_profile == .strict &&
          previewGateBlocks step.tool_name resolved then
        let err := "preview gate rejected: preview is required for " ++
          step.tool_name
        ⟨.ok failed (some err),
         { st with
            session := { st.session with status := failed, needs_replan := true }
            plan_steps := updatePlanStep st.plan_steps step.step_key failed
            runs := st.runs ++
              [⟨st.next_run_id, step.step_key, failed, some err, .null⟩]
            events := st.events ++
              [⟨"step_failed", "step " ++ step.step_key ++ " failed", err⟩]
            next_run_id := st.next_run_id + 1 },
         none⟩
      else
        match invoke step.tool_name resolved st.fs with
        | .ok (output, fs1) =>
          let steps1 := updatePlanStep st.plan_steps step.step_key succeeded
          ⟨.ok succeeded none,
           { st with
              session := { st.session with
                status :=
                  if steps1.all fun p => p.2 == succeeded then succeeded
                  else awaiting_step_approval }
              plan_steps := steps1
              runs := st.runs ++
                [⟨st.next_run_id, step.step_key, succeeded, none, output⟩]
              events := st.events ++
                [⟨"step_executed", "step " ++ step.step_key ++ " executed", ""⟩]
              fs := fs1
              next_run_id := st.next_run_id + 1 },
           some (step.tool_name, resolved)⟩
        | .error e =>
          ⟨.ok failed (some e),
           { st with
              session := { st.session with status := failed, needs_replan := true }
              plan_steps := updatePlanStep st.plan_steps step.step_key failed
              runs := st.runs ++
                [⟨st.next_run_id, step.step_key, failed, some e, .null⟩]
              events := st.events ++
                [⟨"step_failed", "step " ++ step.step_key ++ " failed", e⟩]
              next_run_id := st.next_run_id + 1 },
           some (step.tool_name, resolved)⟩

/-- Modelled from the spec (§4.5 ImportPlan): upserts the plan for
`(session_id, version)`, replaces the step rows, sets the session status to
`awaiting_plan_approval`, records the highest imported version, and clears
`needs_replan`. -/
def importPlanSpec (st : EngineState) (version : Nat) (keys : List String) :
    EngineState :=
  { st with
      session := { st.session with
        status := awaiting_plan_approval
        needs_replan := false
        plan_version := some (max version (st.session.plan_version.getD 0)) }
      plan_steps := keys.map fun k => (k, pending) }

/-- Modelled from the spec (§4.5 ApprovePlan): records the plan approval and
moves the session to `awaiting_step_approval`. -/
def approvePlanSpec (st : EngineState) : EngineState :=
  { st with
      plan_approved := true
      session := { st.session with status := awaiting_step_approval } }

/-- Modelled from the spec (§4.5 ApproveStep): records the step approval and
marks the step `awaiting_step_approval`. -/
def approveStepSpec (st : EngineState) (key : String) : EngineState :=
  { st with
      step_approved := true
      plan_steps := updatePlanStep st.plan_steps key awaiting_step_approval }

/-- Resolving an object input preserves the absence of a key. -/
theorem jsonHasKey_false_of_resolve (runs : List PriorRun)
    (fields : List (String × Json)) (j : Json) (k : String)
    (h : resolveInputs runs (.obj fields) = .ok j)
    (hk : jsonHasKey (.obj fields) k = false) : jsonHasKey j k = false := by
  rw [show resolveInputs runs (.obj fields) =
      (match resolveObj runs fields with
        | .ok fields1 => .ok (.obj fields1)
        | .error e => .error e) from by
    simp [resolveInputs]] at h
  rcases hro : resolveObj runs fields with e | fields1
  · rw [hro] at h; cases h
  · rw [hro] at h; cases h
    have hkeys := resolveObj_keys runs fields fields1 hro
    simp only [jsonHasKey] at hk ⊢
    have hmap : ∀ fs : List (String × Json),
        (fs.any fun f => f.1 == k) = (fs.map Prod.fst).any fun s => s == k := by
      intro fs
      induction fs with
      | nil => rfl
      | cons f rest ih => simp [List.any_cons, ih]
    rw [hmap fields1, hkeys, ← hmap fields]
    exact hk

/-- C1: in a `strict` session, an ExecuteStep on a `write_file_apply` step
whose inputs carry no `preview` key is refused before the tool handler runs
(for every executor `invoke`, which is never called): the HTTP outcome is
200 with `status = failed` and the error
`"preview gate rejected: preview is required for write_file_apply"`, a
failed run row with that reason and a `step_failed` event with the same
reason are persisted, and the filesystem — hence the target file — is
untouched. -/
theorem preview_gate_refuses_write_file_apply
    (invoke : String → Json → FS → Except String (Json × FS))
    (st : EngineState) (step : EngineStep) (confirm_high_risk : Bool)
    (fields : List (String × Json)) (resolved : Json)
    (h1 : st.session.safety_profile = .strict)
    (h2 : st.session.needs_replan = false)
    (h3 : st.plan_approved = true)
    (h4 : st.step_approved = true)
    (h5 : (step.risk == RiskLevel.high && !confirm_high_risk) = false)
    (h6 : st.session.mode = .normal)
    (h7 : step.tool_name = "write_file_apply")
    (hobj : step.inputs = .obj fields)
    (h8 : resolveInputs st.runs step.inputs = .ok resolved)
    (h9 : jsonHasKey step.inputs "preview" = false) :
    executeStepSpec invoke st step confirm_high_risk =
      ⟨.ok failed
        (some "preview gate rejected: preview is required for write_file_apply"),
       { st with
          session := { st.session with status := failed, needs_replan := true }
          plan_steps := updatePlanStep st.plan_steps step.step_key failed
          runs := st.runs ++
            [⟨st.next_run_id, step.step_key, failed,
              some "preview gate rejected: preview is required for write_file_apply",
              .null⟩]
          events := st.events ++
            [⟨"step_failed", "step " ++ step.step_key ++ " failed",
              "preview gate rejected: preview is required for write_file_apply"⟩]
          next_run_id := st.next_run_id + 1 },
       none⟩ := by
  have hres : jsonHasKey resolved "preview" = false :=
    jsonHasKey_false_of_resolve st.runs fields resolved "preview"
      (hobj ▸ h8) (hobj ▸ h9)
  unfold executeStepSpec
  rw [h2, h3, h4, h5, h6, h8, h1, h7]
  simp [previewGateBlocks, mutatingInvocation, hres]

/-- Witness for C1: a strict normal-mode session with both approvals, a
`write_file_apply` step whose inputs are `path`/`content` only. -/
theorem preview_gate_refuses_write_file_apply_witness :
    executeStepSpec (fun _ _ fs => .ok (.null, fs))
      ⟨⟨awaiting_step_approval, false, .strict, .normal, some 1⟩,
        true, true, [("step_apply", awaiting_step_approval)], [], [], [], 0⟩
      ⟨"step_apply", "write_file_apply", .low,
        .obj [("path", .str "memo.txt"), ("content", .str "after")]⟩
      false =
      ⟨.ok failed
        (some "preview gate rejected: preview is required for write_file_apply"),
       ⟨⟨failed, true, .strict, .normal, some 1⟩,
        true, true, [("step_apply", failed)],
        [⟨0, "step_apply", failed,
          some "preview gate rejected: preview is required for write_file_apply",
          .null⟩],
        [⟨"step_failed", "step step_apply failed",
          "preview gate rejected: preview is required for write_file_apply"⟩],
        [], 1⟩,
       none⟩ :=
  preview_gate_refuses_write_file_apply (fun _ _ fs => .ok (.null, fs))
    ⟨⟨awaiting_step_approval, false, .strict, .normal, some 1⟩,
      true, true, [("step_apply", awaiting_step_approval)], [], [], [], 0⟩
    ⟨"step_apply", "write_file_apply", .low,
      .obj [("path", .str "memo.txt"), ("content", .str "after")]⟩
    false
    [("path", .str "memo.txt"), ("content", .str "after")]
    (.obj [("path", .str "memo.txt"), ("content", .str "after")])
    rfl rfl rfl rfl rfl rfl rfl rfl
    (by
      simp only [resolveInputs, resolveObj, resolveString]
      rw [show parsePlaceholder "memo.txt" = none from by decide,
        show parsePlaceholder "after" = none from by decide])
    rfl

/-- C2 counterexample: the claim requires every ExecuteStep after
`needs_replan` is set to be rejected with a 409 containing "needs replan"
*until a plan with a newer version is imported*.  But ImportPlan upserts by
`(session_id, version)` and clears `needs_replan` for any version: after
re-importing the existing version 1 (so `plan_version` is still 1 — no newer
version was ever imported) and re-recording approvals, an ExecuteStep call
returns HTTP 200 `status = succeeded` instead of the claimed rejection. -/
theorem needs_replan_cleared_without_newer_version :
    (⟨⟨failed, true, .dev, .normal, some 1⟩, true, true,
        [("s1", failed)], [], [], [], 5⟩ : EngineState).session.needs_replan =
      true ∧
    (approveStepSpec (approvePlanSpec (importPlanSpec
        ⟨⟨failed, true, .dev, .normal, some 1⟩, true, true,
          [("s1", failed)], [], [], [], 5⟩ 1 ["s1"])) "s1").session.plan_version =
      some 1 ∧
    (executeStepSpec (fun _ _ fs => .ok (.null, fs))
        (approveStepSpec (approvePlanSpec (importPlanSpec
          ⟨⟨failed, true, .dev, .normal, some 1⟩, true, true,
            [("s1", failed)], [], [], [], 5⟩ 1 ["s1"])) "s1")
        ⟨"s1", "list_dir", .low, .obj []⟩ false).outcome =
      .ok succeeded none := by
  refine ⟨rfl, rfl, ?_⟩
  simp only [executeStepSpec, importPlanSpec, approvePlanSpec, approveStepSpec]
  rw [show resolveInputs [] (Json.obj []) = .ok (.obj []) from by
    simp [resolveInputs, resolveObj]]
  simp [previewGateBlocks, mutatingInvocation, jsonField, isStrVal,
    jsonHasKey, updatePlanStep]

/-- C2 (amended): while `session.needs_replan` is set, every ExecuteStep
call is rejected with the 409 detail "session needs replan" (which contains
"needs replan") and changes nothing; approvals never clear the flag; and
importing a plan — of any version, a newer one in the intended recovery
flow — clears it. -/
theorem needs_replan_blocks_execution_until_import
    (invoke : String → Json → FS → Except String (Json × FS))
    (st : EngineState) (step : EngineStep) (confirm_high_risk : Bool)
    (h : st.session.needs_replan = true) :
    executeStepSpec invoke st step confirm_high_risk =
      ⟨.conflict "session needs replan", st, none⟩ ∧
    (∀ version keys,
      (importPlanSpec st version keys).session.needs_replan = false) ∧
    (approvePlanSpec st).session.needs_replan = true ∧
    (∀ key, (approveStepSpec st key).session.needs_replan = true) := by
  refine ⟨?_, fun version keys => rfl, h ▸ rfl, fun key => h ▸ rfl⟩
  unfold executeStepSpec
  rw [h]
  simp

/-- Witness for the amended C2 at a concrete blocked session. -/
theorem needs_replan_blocks_execution_until_import_witness :
    executeStepSpec (fun _ _ fs => .ok (.null, fs))
        ⟨⟨failed, true, .strict, .normal, some 1⟩, true, true,
          [("s1", failed)], [], [], [], 3⟩
        ⟨"s1", "list_dir", .low, .obj []⟩ false =
      ⟨.conflict "session needs replan",
        ⟨⟨failed, true, .strict, .normal, some 1⟩, true, true,
          [("s1", failed)], [], [], [], 3⟩, none⟩ ∧
    (∀ version keys,
      (importPlanSpec
        ⟨⟨failed, true, .strict, .normal, some 1⟩, true, true,
          [("s1", failed)], [], [], [], 3⟩ version keys).session.needs_replan =
        false) ∧
    (approvePlanSpec
      ⟨⟨failed, true, .strict, .normal, some 1⟩, true, true,
        [("s1", failed)], [], [], [], 3⟩).session.needs_replan = true ∧
    (∀ key, (approveStepSpec
      ⟨⟨failed, true, .strict, .normal, some 1⟩, true, true,
        [("s1", failed)], [], [], [], 3⟩ key).session.needs_replan = true) :=
  needs_replan_blocks_execution_until_import (fun _ _ fs => .ok (.null, fs))
    ⟨⟨failed, true, .strict, .normal, some 1⟩, true, true,
      [("s1", failed)], [], [], [], 3⟩
    ⟨"s1", "list_dir", .low, .obj []⟩ false rfl

/-- C3: resolution of `$\x7bsteps.<step_key>.output[.<field>...]\x7d` input
references.  (a) When no successful prior run of the key exists the string
resolves to exactly the error
`"step input reference could not be resolved: <original>"`; (b) the engine
turns any resolution failure into a 409 conflict with that detail, with the
state unchanged — in particular no run row is created; (c) when a successful
run exists the placeholder is structurally replaced by the field path into
that run's output; (d) with the preview gate not firing, the tool handler is
invoked with exactly the resolved inputs. -/
theorem step_input_reference_resolution
    (invoke : String → Json → FS → Except String (Json × FS))
    (st : EngineState) (step : EngineStep) (confirm_high_risk : Bool)
    (h2 : st.session.needs_replan = false)
    (h3 : st.plan_approved = true)
    (h4 : st.step_approved = true)
    (h5 : (step.risk == RiskLevel.high && !confirm_high_risk) = false)
    (h6 : (st.session.mode == EngineMode.dry_run &&
      mutatingInvocation step.tool_name step.inputs) = false) :
    (∀ s key fields, parsePlaceholder s = some (key, fields) →
      latestSuccessfulRun st.runs key = none →
      resolveString st.runs s =
        .error ("step input reference could not be resolved: " ++ s)) ∧
    (∀ e, resolveInputs st.runs step.inputs = .error e →
      executeStepSpec invoke st step confirm_high_risk =
        ⟨.conflict e, st, none⟩) ∧
    (∀ s key fields r v, parsePlaceholder s = some (key, fields) →
      latestSuccessfulRun st.runs key = some r →
      navigateFields r.output fields = some v →
      resolveString st.runs s = .ok v) ∧
    (∀ resolved, resolveInputs st.runs step.inputs = .ok resolved →
      (st.session.safety_profile == SafetyProfile.strict &&
        previewGateBlocks step.tool_name resolved) = false →
      (executeStepSpec invoke st step confirm_high_risk).invoked =
        some (step.tool_name, resolved)) := by
  refine ⟨?_, ?_, ?_, ?_⟩
  · intro s key fields hparse hnone
    unfold resolveString
    rw [hparse]
    simp [hnone]
  · intro e hres
    unfold executeStepSpec
    rw [h2, h3, h4, h5, h6, hres]
    simp
  · intro s key fields r v hparse hsome hnav
    unfold resolveString
    rw [hparse]
    simp [hsome, hnav]
  · intro resolved hres hgate
    unfold executeStepSpec
    rw [h2, h3, h4, h5, h6, hres]
    simp only [Bool.false_eq_true, if_false]
    rw [hgate]
    simp only [Bool.false_eq_true, if_false]
    rcases hinv : invoke step.tool_name resolved st.fs with e | out
    · simp [hinv]
    · rcases out with ⟨output, fs1⟩
      simp [hinv]

/-- Witness for C3, mirroring scenarios S4/S6: the placeholder
`$\x7bsteps.step_preview.output\x7d` fails with the quoted 409 before any
run exists, and resolves structurally once a successful `step_preview` run
is recorded, after which the tool is invoked with the substituted inputs. -/
theorem step_input_reference_resolution_witness :
    resolveString [] "$\x7bsteps.step_preview.output\x7d" =
      .error
        "step input reference could not be resolved: $\x7bsteps.step_preview.output\x7d" ∧
    executeStepSpec (fun _ _ fs => .ok (.null, fs))
        ⟨⟨awaiting_step_approval, false, .dev, .normal, some 1⟩, true, true,
          [("step_apply", awaiting_step_approval)], [], [], [], 0⟩
        ⟨"step_apply", "write_file_apply", .low,
          .obj [("preview", .str "$\x7bsteps.step_preview.output\x7d")]⟩ false =
      ⟨.conflict
        "step input reference could not be resolved: $\x7bsteps.step_preview.output\x7d",
       ⟨⟨awaiting_step_approval, false, .dev, .normal, some 1⟩, true, true,
          [("step_apply", awaiting_step_approval)], [], [], [], 0⟩, none⟩ ∧
    resolveString [⟨0, "step_preview", succeeded, none,
        .obj [("path", .str "memo.txt")]⟩]
        "$\x7bsteps.step_preview.output\x7d" =
      .ok (.obj [("path", .str "memo.txt")]) ∧
    (executeStepSpec (fun _ _ fs => .ok (.null, fs))
        ⟨⟨awaiting_step_approval, false, .dev, .normal, some 1⟩, true, true,
          [("step_apply", awaiting_step_approval)],
          [⟨0, "step_preview", succeeded, none,
            .obj [("path", .str "memo.txt")]⟩], [], [], 1⟩
        ⟨"step_apply", "write_file_apply", .low,
          .obj [("preview", .str "$\x7bsteps.step_preview.output\x7d")]⟩
        false).invoked =
      some ("write_file_apply",
        .obj [("preview", .obj [("path", .str "memo.txt")])]) := by
  have hparse : parsePlaceholder "$\x7bsteps.step_preview.output\x7d" =
      some ("step_preview", []) := by decide
  refine ⟨?_, ?_, ?_, ?_⟩
  · exact (step_input_reference_resolution (fun _ _ fs => .ok (.null, fs))
      ⟨⟨awaiting_step_approval, false, .dev, .normal, some 1⟩, true, true,
        [("step_apply", awaiting_step_approval)], [], [], [], 0⟩
      ⟨"step_apply", "write_file_apply", .low,
        .obj [("preview", .str "$\x7bsteps.step_preview.output\x7d")]⟩ false
      rfl rfl rfl rfl rfl).1
      "$\x7bsteps.step_preview.output\x7d" "step_preview" [] hparse rfl
  · exact (step_input_reference_resolution (fun _ _ fs => .ok (.null, fs))
      ⟨⟨awaiting_step_approval, false, .dev, .normal, some 1⟩, true, true,
        [("step_apply", awaiting_step_approval)], [], [], [], 0⟩
      ⟨"step_apply", "write_file_apply", .low,
        .obj [("preview", .str "$\x7bsteps.step_preview.output\x7d")]⟩ false
      rfl rfl rfl rfl rfl).2.1
      "step input reference could not be resolved: $\x7bsteps.step_preview.output\x7d"
      (by
        simp only [resolveInputs, resolveObj, resolveString]
        rw [hparse]
        rfl)
  · exact (step_input_reference_resolution (fun _ _ fs => .ok (.null, fs))
      ⟨⟨awaiting_step_approval, false, .dev, .normal, some 1⟩, true, true,
        [("step_apply", awaiting_step_approval)],
        [⟨0, "step_preview", succeeded, none,
          .obj [("path", .str "memo.txt")]⟩], [], [], 1⟩
      ⟨"step_apply", "write_file_apply", .low,
        .obj [("preview", .str "$\x7bsteps.step_preview.output\x7d")]⟩ false
      rfl rfl rfl rfl rfl).2.2.1
      "$\x7bsteps.step_preview.output\x7d" "step_preview" []
      ⟨0, "step_preview", succeeded, none, .obj [("path", .str "memo.txt")]⟩
      (.obj [("path", .str "memo.txt")]) hparse rfl rfl
  · exact (step_input_reference_resolution (fun _ _ fs => .ok (.null, fs))
      ⟨⟨awaiting_step_approval, false, .dev, .normal, some 1⟩, true, true,
        [("step_apply", awaiting_step_approval)],
        [⟨0, "step_preview", succeeded, none,
          .obj [("path", .str "memo.txt")]⟩], [], [], 1⟩
      ⟨"step_apply", "write_file_apply", .low,
        .obj [("preview", .str "$\x7bsteps.step_preview.output\x7d")]⟩ false
      rfl rfl rfl rfl rfl).2.2.2
      (.obj [("preview", .obj [("path", .str "memo.txt")])])
      (by
        simp only [resolveInputs, resolveObj, resolveString]
        rw [hparse]
        rfl)
      rfl

end Calt
